import Mathlib

/-!
Verification of the task-record model and in-memory task collection of
`todo_app.py` (console todo application).

The Python code is shallowly embedded: the `Task` class becomes a structure,
its `to_dict` / `from_dict` conversions become functions between `Task` and
`TaskDict` (the JSON record), and each `TodoManager` method becomes a pure
function from the current task list (plus the already-collected raw input
strings) to a new task list together with a flag recording whether
`save_tasks` was invoked and the message printed.  Python string helpers
(`str.lower`, `str.strip`, `str.split(",")`, substring `in`) are embedded as
executable functions on the character list underlying `String`.
-/

namespace TodoApp

/-- Embeds Python `str.lower` for a single ASCII character
(`A`-`Z` mapped to `a`-`z`, everything else unchanged). -/
def pyLowerChar (c : Char) : Char :=
  if 'A' ≤ c ∧ c ≤ 'Z' then Char.ofNat (c.toNat + 32) else c

/-- Embeds Python `str.lower` (ASCII fragment, which is all the app uses). -/
def pyLower (s : String) : String :=
  String.mk (s.data.map pyLowerChar)

/-- Whitespace characters removed by Python `str.strip()`. -/
def pyIsSpace (c : Char) : Bool :=
  c = ' ' || c = '\t' || c = '\n' || c = '\r' || c = '\x0b' || c = '\x0c'

/-- Embeds Python `str.strip()`: drop leading and trailing whitespace. -/
def pyStrip (s : String) : String :=
  String.mk (((s.data.dropWhile pyIsSpace).reverse.dropWhile pyIsSpace).reverse)

/-- Splits a character list at every comma; like Python `str.split(",")` it
returns one (possibly empty) segment more than there are commas. -/
def splitCommaAux : List Char → List (List Char)
  | [] => [[]]
  | c :: cs =>
    if c = ',' then [] :: splitCommaAux cs
    else
      match splitCommaAux cs with
      | [] => [[c]]
      | s :: rest => (c :: s) :: rest

/-- Embeds Python `s.split(",")`. -/
def pySplitComma (s : String) : List String :=
  (splitCommaAux s.data).map String.mk

/-- Does the second character list start with the first? -/
def isPrefixChars : List Char → List Char → Bool
  | [], _ => true
  | _ :: _, [] => false
  | a :: as, b :: bs => a = b && isPrefixChars as bs

/-- Does the second character list contain the first as a contiguous run? -/
def containsChars (needle : List Char) : List Char → Bool
  | [] => isPrefixChars needle []
  | c :: cs => isPrefixChars needle (c :: cs) || containsChars needle cs

/-- Embeds Python `needle in hay` for strings (substring test). -/
def pyIn (needle hay : String) : Bool :=
  containsChars needle.data hay.data

/-- The `Task` record (`todo_app.py` lines 9-22): id, title, description,
priority, tags, due_date, completed, created_at. -/
structure Task where
  id : Int
  title : String
  description : String
  priority : String
  tags : List String
  due_date : Option String
  completed : Bool
  created_at : String
deriving DecidableEq, Repr

/-- The JSON record produced by `Task.to_dict` / consumed by
`Task.from_dict`: the same eight keys.  `tags` and `created_at` are optional
here because `Task.__init__` accepts `None` for them (and the JSON file may
hold `null`). -/
structure TaskDict where
  id : Int
  title : String
  description : String
  priority : String
  tags : Option (List String)
  due_date : Option String
  completed : Bool
  created_at : Option String
deriving DecidableEq, Repr

/-- Embeds `Task.__init__` (lines 10-22).  `now` stands for
`datetime.now().strftime("%Y-%m-%d %H:%M:%S")`.  The `tags or []` and
`created_at or now` defaults follow Python truthiness: `None` and the empty
list / empty string are falsy. -/
def Task.init (now : String) (id : Int) (title description priority : String)
    (tags : Option (List String)) (due_date : Option String)
    (completed : Bool) (created_at : Option String) : Task :=
  { id := id
    title := title
    description := description
    priority := priority
    tags := match tags with
      | none => []
      | some l => if l = [] then [] else l
    due_date := due_date
    completed := completed
    created_at := match created_at with
      | none => now
      | some s => if s = "" then now else s }

/-- Embeds `Task.to_dict` (lines 25-35). -/
def Task.to_dict (t : Task) : TaskDict :=
  { id := t.id
    title := t.title
    description := t.description
    priority := t.priority
    tags := some t.tags
    due_date := t.due_date
    completed := t.completed
    created_at := some t.created_at }

/-- Embeds `Task.from_dict` (lines 38-40): `Task(**data)`. -/
def Task.from_dict (now : String) (data : TaskDict) : Task :=
  Task.init now data.id data.title data.description data.priority
    data.tags data.due_date data.completed data.created_at

/-- Embeds `TodoManager.load_tasks` (lines 53-59) on an already-parsed JSON
array: each record is rebuilt with `Task.from_dict`, in file order. -/
def load_tasks (now : String) (data : List TaskDict) : List Task :=
  data.map (Task.from_dict now)

/-- Embeds `TodoManager.save_tasks` (lines 62-64): the serialized form of the
whole collection that overwrites the backing file. -/
def save_tasks (tasks : List Task) : List TaskDict :=
  tasks.map Task.to_dict

/-- Embeds Python `max(list, default=0)`: the default is used only when the
list is empty. -/
def pyMaxDefault0 (l : List Int) : Int :=
  match l with
  | [] => 0
  | x :: xs => xs.foldl max x

/-- Embeds `TodoManager.generate_id` (lines 67-68):
`max([task.id for task in self.tasks], default=0) + 1`. -/
def generate_id (tasks : List Task) : Int :=
  pyMaxDefault0 (tasks.map Task.id) + 1

/-- Result of a `TodoManager` operation: the new in-memory collection,
whether `save_tasks` was called, and the message printed. -/
structure OpResult where
  tasks : List Task
  saved : Bool
  msg : String
deriving DecidableEq, Repr

/-- Embeds `TodoManager.find_task` (lines 155-159): first task with the
given id, else `None`. -/
def find_task (tasks : List Task) (task_id : Int) : Option Task :=
  tasks.find? (fun t => t.id == task_id)

/-- Replaces the first task whose id is `task_id` by its image under `f`,
leaving everything else in place; this models the in-place mutation of the
object returned by `find_task`. -/
def set_first (tasks : List Task) (task_id : Int) (f : Task → Task) : List Task :=
  match tasks with
  | [] => []
  | t :: ts => if t.id = task_id then f t :: ts else t :: set_first ts task_id f

/-- Embeds `TodoManager.add_task` (lines 71-96) applied to the five raw
input strings: priority is lowercased and coerced to `"medium"` unless it is
one of the three valid values; tags are lowercased, split on commas, trimmed
and empty entries dropped; a blank due date becomes `None`; the new task is
appended and the store saved. -/
def add_task (now : String) (tasks : List Task)
    (title description priority_input tags_input due_date_input : String) : OpResult :=
  let priority0 := pyLower priority_input
  let priority := if priority0 ∈ (["low", "medium", "high"] : List String) then priority0 else "medium"
  let tags := pySplitComma (pyLower tags_input)
  let due_date := if pyStrip due_date_input = "" then none else some due_date_input
  let new_task := Task.init now (generate_id tasks) title description priority
    (some ((tags.filter (fun t => pyStrip t != "")).map pyStrip)) due_date false none
  { tasks := tasks ++ [new_task], saved := true, msg := "Task added successfully!" }

/-- Embeds `TodoManager.delete_task` (lines 99-103): keep the tasks whose id
differs, save unconditionally, and print `"Task deleted."` unconditionally. -/
def delete_task (tasks : List Task) (task_id : Int) : OpResult :=
  { tasks := tasks.filter (fun t => t.id != task_id)
    saved := true
    msg := "Task deleted." }

/-- Embeds the field assignments of `TodoManager.update_task`
(lines 119-136) on one task: title and description are replaced when the
input is non-empty (Python truthiness, so whitespace counts as non-empty);
the priority input is lowercased and applied only when it is one of the
three valid values; tags are replaced by the comma-split trimmed tokens when
the raw text is non-blank after stripping; due date is replaced when
non-blank after stripping. -/
def update_fields (t : Task) (title description priority_input tags due_date : String) : Task :=
  let priority := pyLower priority_input
  { t with
    title := if title ≠ "" then title else t.title
    description := if description ≠ "" then description else t.description
    priority := if priority ∈ (["low", "medium", "high"] : List String) then priority else t.priority
    tags := if pyStrip tags ≠ "" then (pySplitComma tags).map pyStrip else t.tags
    due_date := if pyStrip due_date ≠ "" then some due_date else t.due_date }

/-- Embeds `TodoManager.update_task` (lines 106-139): if no task has the id,
report `"Task not found."` without mutating or saving; otherwise mutate the
found task in place per `update_fields` and save. -/
def update_task (tasks : List Task) (task_id : Int)
    (title description priority_input tags due_date : String) : OpResult :=
  match find_task tasks task_id with
  | none => { tasks := tasks, saved := false, msg := "Task not found." }
  | some _ =>
    { tasks := set_first tasks task_id
        (fun t => update_fields t title description priority_input tags due_date)
      saved := true
      msg := "Task updated." }

/-- Embeds `TodoManager.toggle_complete` (lines 142-152). -/
def toggle_complete (tasks : List Task) (task_id : Int) : OpResult :=
  match find_task tasks task_id with
  | none => { tasks := tasks, saved := false, msg := "Task not found." }
  | some _ =>
    { tasks := set_first tasks task_id (fun t => { t with completed := !t.completed })
      saved := true
      msg := "Task status changed." }

/-- Embeds `["low", "medium", "high"].index(p)` (line 229): the position of
`p` in the fixed priority list, or `none` when Python would raise
`ValueError`. -/
def priority_index (p : String) : Option Nat :=
  if p = "low" then some 0
  else if p = "medium" then some 1
  else if p = "high" then some 2
  else none

/-- The sort key of line 229, defined on tasks whose priority is valid. -/
def priority_key (t : Task) : Nat :=
  (priority_index t.priority).getD 0

/-- The comparison `sort` uses in priority mode: ascending sort key. -/
abbrev priority_le (a b : Task) : Prop :=
  priority_key a ≤ priority_key b

/-- The comparison of sort mode 2 (line 231): case-insensitive title. -/
abbrev title_le (a b : Task) : Prop :=
  pyLower a.title ≤ pyLower b.title

/-- The comparison of sort mode 3 (line 233): creation timestamp text. -/
abbrev created_le (a b : Task) : Prop :=
  a.created_at ≤ b.created_at

/-- Embeds `TodoManager.sort_tasks` (lines 219-239).  Python `list.sort` is
stable, as is `List.insertionSort`.  In priority mode the key lookup
`["low", "medium", "high"].index(x.priority)` raises `ValueError` on a task
whose priority is outside the list; this surfaces as `Except.error`.  An
unrecognized choice leaves the collection untouched and does not save. -/
def sort_tasks (tasks : List Task) (choice : String) : Except String OpResult :=
  if choice = "1" then
    if tasks.all (fun t => (priority_index t.priority).isSome) then
      Except.ok { tasks := List.insertionSort priority_le tasks
                  saved := true, msg := "Tasks sorted." }
    else Except.error "ValueError"
  else if choice = "2" then
    Except.ok { tasks := List.insertionSort title_le tasks
                saved := true, msg := "Tasks sorted." }
  else if choice = "3" then
    Except.ok { tasks := List.insertionSort created_le tasks
                saved := true, msg := "Tasks sorted." }
  else
    Except.ok { tasks := tasks, saved := false, msg := "Invalid choice." }

/-- Embeds `TodoManager.search_tasks` (lines 183-193): keep, in order, the
tasks whose lowercased title or description contains the lowercased keyword. -/
def search_tasks (tasks : List Task) (keyword_input : String) : List Task :=
  let keyword := pyLower keyword_input
  tasks.filter (fun t => pyIn keyword (pyLower t.title) || pyIn keyword (pyLower t.description))

/-- The §3 invariant on one task: priority is one of the three enumerated
values. -/
def ValidPriority (t : Task) : Prop :=
  t.priority = "low" ∨ t.priority = "medium" ∨ t.priority = "high"

instance (t : Task) : Decidable (ValidPriority t) := by
  unfold ValidPriority; infer_instance

/-- A concrete task used to instantiate hypotheses at explicit inputs. -/
def exTask (i : Int) (p : String) : Task :=
  { id := i, title := "Buy milk", description := "from the store", priority := p
    tags := [], due_date := none, completed := false
    created_at := "2024-01-01 00:00:00" }

/-- A concrete backing-file record whose priority text is outside
{low, medium, high}. -/
def urgentDict : TaskDict :=
  { id := 1, title := "x", description := "", priority := "urgent"
    tags := some [], due_date := none, completed := false
    created_at := some "2024-01-01 00:00:00" }

/-- The task `urgentDict` deserializes to. -/
def urgentTask : Task :=
  { id := 1, title := "x", description := "", priority := "urgent"
    tags := [], due_date := none, completed := false
    created_at := "2024-01-01 00:00:00" }

instance : IsTotal Task priority_le :=
  ⟨fun a b => Nat.le_total (priority_key a) (priority_key b)⟩

instance : IsTrans Task priority_le :=
  ⟨fun _ _ _ h1 h2 => Nat.le_trans h1 h2⟩

/-! ### Helper lemmas -/

theorem containsChars_nil (l : List Char) : containsChars [] l = true := by
  cases l <;> simp [containsChars, isPrefixChars]

theorem le_foldl_max (xs : List Int) (x : Int) : x ≤ xs.foldl max x := by
  induction xs generalizing x with
  | nil => exact le_refl x
  | cons y ys ih => exact le_trans (le_max_left x y) (ih (max x y))

theorem foldl_max_mem (xs : List Int) (x : Int) : xs.foldl max x ∈ x :: xs := by
  induction xs generalizing x with
  | nil => simp [List.foldl]
  | cons y ys ih =>
    have h := ih (max x y)
    have hfold : (y :: ys).foldl max x = ys.foldl max (max x y) := rfl
    rw [hfold]
    rcases List.mem_cons.mp h with h1 | h1
    · rcases max_choice x y with hm | hm
      · rw [h1, hm]; exact List.mem_cons_self x (y :: ys)
      · rw [h1, hm]; exact List.mem_cons_of_mem x (List.mem_cons_self y ys)
    · exact List.mem_cons_of_mem x (List.mem_cons_of_mem y h1)

theorem foldl_max_le (xs : List Int) (x : Int) : ∀ y ∈ x :: xs, y ≤ xs.foldl max x := by
  induction xs generalizing x with
  | nil =>
    intro y hy
    rw [List.mem_singleton] at hy
    exact hy.le
  | cons z zs ih =>
    intro y hy
    have hfold : (z :: zs).foldl max x = zs.foldl max (max x z) := rfl
    rw [hfold]
    rcases List.mem_cons.mp hy with h1 | h1
    · exact le_trans (h1 ▸ le_max_left x z) (le_foldl_max zs (max x z))
    · rcases List.mem_cons.mp h1 with h2 | h2
      · exact le_trans (h2 ▸ le_max_right x z) (le_foldl_max zs (max x z))
      · exact ih (max x z) y (List.mem_cons_of_mem _ h2)

theorem update_fields_blank (t : Task) : update_fields t "" "" "" "" "" = t := rfl

theorem set_first_congr_id (ts : List Task) (task_id : Int) (f : Task → Task)
    (hf : ∀ x, f x = x) : set_first ts task_id f = ts := by
  induction ts with
  | nil => rfl
  | cons y ys ih =>
    rw [set_first]
    by_cases h : y.id = task_id
    · rw [if_pos h, hf y]
    · rw [if_neg h, ih]

theorem mem_set_first {ts : List Task} {task_id : Int} {f : Task → Task} {x : Task}
    (hx : x ∈ set_first ts task_id f) : x ∈ ts ∨ ∃ t ∈ ts, x = f t := by
  induction ts with
  | nil => simp [set_first] at hx
  | cons y ys ih =>
    rw [set_first] at hx
    by_cases h : y.id = task_id
    · rw [if_pos h] at hx
      rcases List.mem_cons.mp hx with h1 | h1
      · exact Or.inr ⟨y, List.mem_cons_self y ys, h1⟩
      · exact Or.inl (List.mem_cons_of_mem y h1)
    · rw [if_neg h] at hx
      rcases List.mem_cons.mp hx with h1 | h1
      · exact Or.inl (h1 ▸ List.mem_cons_self y ys)
      · rcases ih h1 with h2 | ⟨t, ht, h2⟩
        · exact Or.inl (List.mem_cons_of_mem y h2)
        · exact Or.inr ⟨t, List.mem_cons_of_mem y ht, h2⟩

theorem find_task_set_first (ts : List Task) (task_id : Int) (f : Task → Task)
    (hid : ∀ x, (f x).id = x.id) :
    find_task (set_first ts task_id f) task_id = (find_task ts task_id).map f := by
  induction ts with
  | nil => rfl
  | cons y ys ih =>
    rw [set_first]
    by_cases h : y.id = task_id
    · have hy : (y.id == task_id) = true := by simp [h]
      have hfy : ((f y).id == task_id) = true := by simp [hid y, h]
      rw [if_pos h]
      unfold find_task
      rw [List.find?_cons_of_pos (p := fun t : Task => t.id == task_id) _ hfy,
        List.find?_cons_of_pos (p := fun t : Task => t.id == task_id) _ hy]
      rfl
    · have hy : ¬ ((y.id == task_id) = true) := by simp [h]
      rw [if_neg h]
      unfold find_task
      rw [List.find?_cons_of_neg (p := fun t : Task => t.id == task_id) _ hy,
        List.find?_cons_of_neg (p := fun t : Task => t.id == task_id) _ hy]
      exact ih

theorem task_init_some_tags (now : String) (i : Int) (ti de pr : String)
    (l : List String) (dd : Option String) (co : Bool) (ca : Option String) :
    (Task.init now i ti de pr (some l) dd co ca).tags = l := by
  rcases eq_or_ne l [] with h | h <;> simp [Task.init, h]

theorem validStr_ite (p alt : String) (halt : alt = "low" ∨ alt = "medium" ∨ alt = "high") :
    (if p ∈ (["low", "medium", "high"] : List String) then p else alt) = "low" ∨
      (if p ∈ (["low", "medium", "high"] : List String) then p else alt) = "medium" ∨
      (if p ∈ (["low", "medium", "high"] : List String) then p else alt) = "high" := by
  by_cases h : p ∈ (["low", "medium", "high"] : List String)
  · simp only [if_pos h]
    simpa using h
  · simp only [if_neg h]
    exact halt

theorem update_fields_valid (t : Task) (ti de pr tg dd : String)
    (hv : ValidPriority t) : ValidPriority (update_fields t ti de pr tg dd) :=
  validStr_ite (pyLower pr) t.priority hv

theorem filter_key_orderedInsert (n : Nat) (x : Task) (l : List Task) :
    (List.orderedInsert priority_le x l).filter (fun z => priority_key z == n)
      = if priority_key x == n
          then x :: l.filter (fun z => priority_key z == n)
          else l.filter (fun z => priority_key z == n) := by
  induction l with
  | nil =>
    simp only [List.orderedInsert, List.filter]
    by_cases h : priority_key x = n
    · simp [h]
    · have hb : (priority_key x == n) = false := by simp [h]
      rw [hb]
      simp [h]
  | cons y ys ih =>
    by_cases hxy : priority_le x y
    · rw [List.orderedInsert, if_pos hxy]
      simp only [List.filter_cons]
    · rw [List.orderedInsert, if_neg hxy]
      have hxy' : ¬ priority_key x ≤ priority_key y := hxy
      have hlt : priority_key y < priority_key x := by omega
      simp only [List.filter_cons, ih]
      by_cases hx : priority_key x = n
      · have hy : ¬ priority_key y = n := by omega
        simp [hx, hy]
      · by_cases hy : priority_key y = n
        · simp [hx, hy]
        · simp [hx, hy]

theorem filter_key_insertionSort (n : Nat) (l : List Task) :
    (List.insertionSort priority_le l).filter (fun z => priority_key z == n)
      = l.filter (fun z => priority_key z == n) := by
  induction l with
  | nil => rfl
  | cons x xs ih =>
    rw [List.insertionSort, filter_key_orderedInsert, ih, List.filter_cons]

theorem priority_beq_key (t : Task) (hv : ValidPriority t) (p : String) :
    (t.priority == p) = (priority_key t == (priority_index p).getD 3) := by
  unfold priority_key priority_index
  rcases hv with h | h | h <;> rw [h] <;>
    by_cases h1 : p = "low" <;> by_cases h2 : p = "medium" <;> by_cases h3 : p = "high" <;>
      simp_all <;>
      first
        | exact fun hh => h1 hh.symm
        | exact fun hh => h2 hh.symm
        | exact fun hh => h3 hh.symm

theorem filter_priority_eq_filter_key (l : List Task) (hv : ∀ t ∈ l, ValidPriority t)
    (p : String) :
    l.filter (fun t => t.priority == p)
      = l.filter (fun t => priority_key t == (priority_index p).getD 3) :=
  List.filter_congr (fun t ht => priority_beq_key t (hv t ht) p)

/-! ### Claims -/

/-- C1: for every valid Task (validity needs `created_at` to be a
`YYYY-MM-DD HH:MM:SS` timestamp, hence a nonempty string that is not
Python-falsy), deserializing the serialized record reproduces the task
field-for-field — all eight fields, `id` and `created_at` included. -/
theorem from_dict_to_dict_roundtrip (t : Task) (now : String)
    (h : t.created_at ≠ "") : Task.from_dict now (Task.to_dict t) = t := by
  obtain ⟨i, ti, de, pr, tg, dd, co, ca⟩ := t
  simp only [ne_eq] at h
  rcases eq_or_ne tg [] with h1 | h1
  · subst h1
    simp [Task.from_dict, Task.to_dict, Task.init, h]
  · simp [Task.from_dict, Task.to_dict, Task.init, h, h1]

theorem from_dict_to_dict_roundtrip_witness :
    (exTask 1 "low").created_at ≠ "" ∧
      Task.from_dict "2025-06-01 12:00:00" (Task.to_dict (exTask 1 "low")) = exTask 1 "low" :=
  ⟨by decide, from_dict_to_dict_roundtrip (exTask 1 "low") "2025-06-01 12:00:00" (by decide)⟩

/-- C2 is false as stated: a whitespace-only title input is not treated as
"no change" — `update_task` overwrites the title with the whitespace string,
because line 124 tests Python truthiness (`if title:`), not blankness. -/
theorem update_blank_counterexample :
    pyStrip " " = "" ∧
    (update_task [exTask 1 "low"] 1 " " "" "" "" "").tasks
      = [{ exTask 1 "low" with title := " " }] ∧
    ({ exTask 1 "low" with title := " " } : Task) ≠ exTask 1 "low" := by decide

/-- C2 (amended): update with all-empty inputs leaves every field of the
found task unchanged and still saves; whitespace-only priority, tags and
due-date inputs are "no change" for their fields, but any non-empty title or
description input — whitespace-only included — replaces that field. -/
theorem update_blank_spec (ts : List Task) (task_id : Int) (t : Task)
    (hf : find_task ts task_id = some t) :
    update_task ts task_id "" "" "" "" ""
      = { tasks := ts, saved := true, msg := "Task updated." } ∧
    ∀ ti de pr tg dd, pyLower pr ∉ (["low", "medium", "high"] : List String) →
      pyStrip tg = "" → pyStrip dd = "" →
      (update_task ts task_id ti de pr tg dd).saved = true ∧
      find_task (update_task ts task_id ti de pr tg dd).tasks task_id
        = some { t with
            title := if ti ≠ "" then ti else t.title
            description := if de ≠ "" then de else t.description } := by
  constructor
  · simp [update_task, hf, set_first_congr_id _ _ _ update_fields_blank]
  · intro ti de pr tg dd hpr htg hdd
    refine ⟨by simp [update_task, hf], ?_⟩
    simp only [update_task, hf]
    rw [find_task_set_first ts task_id (fun t => update_fields t ti de pr tg dd) (fun x => rfl), hf]
    simp [update_fields, htg, hdd, hpr]

theorem update_blank_spec_witness :
    update_task [exTask 1 "low"] 1 "" "" "" "" ""
      = { tasks := [exTask 1 "low"], saved := true, msg := "Task updated." } :=
  (update_blank_spec [exTask 1 "low"] 1 (exTask 1 "low") (by decide)).1

/-- C3: `generate_id` returns 1 on the empty collection and `1 + max(ids)`
otherwise (the returned value minus 1 is an id of the collection and an
upper bound of all its ids); after a store holds ids 1, 2, 3 and id 3 is
deleted, the next generated id is 3 again. -/
theorem generate_id_spec :
    generate_id [] = 1 ∧
    (∀ ts : List Task, ts ≠ [] →
      (generate_id ts - 1) ∈ ts.map Task.id ∧ ∀ t ∈ ts, t.id ≤ generate_id ts - 1) ∧
    generate_id (delete_task [exTask 1 "low", exTask 2 "medium", exTask 3 "high"] 3).tasks = 3 := by
  refine ⟨rfl, ?_, by decide⟩
  intro ts hne
  cases ts with
  | nil => exact absurd rfl hne
  | cons t ts' =>
    have hgen : generate_id (t :: ts') - 1 = (ts'.map Task.id).foldl max t.id := by
      simp [generate_id, pyMaxDefault0]
    constructor
    · rw [hgen]
      simpa using foldl_max_mem (ts'.map Task.id) t.id
    · intro x hx
      rw [hgen]
      apply foldl_max_le
      rcases List.mem_cons.mp hx with h1 | h1
      · exact h1 ▸ List.mem_cons_self _ _
      · exact List.mem_cons_of_mem _ (List.mem_map_of_mem Task.id h1)

theorem generate_id_spec_witness :
    (generate_id [exTask 5 "low"] - 1) ∈ [exTask 5 "low"].map Task.id ∧
      ∀ t ∈ [exTask 5 "low"], t.id ≤ generate_id [exTask 5 "low"] - 1 :=
  generate_id_spec.2.1 [exTask 5 "low"] (by decide)

/-- C4 is false as stated: deleting a nonexistent id does not return "not
found" — the operation prints the same unconditional "Task deleted."
message as a successful delete (lines 99-103 never check whether anything
matched), so the result does not say whether a task was removed. -/
theorem delete_not_found_counterexample :
    delete_task [] 1 = { tasks := [], saved := true, msg := "Task deleted." } ∧
    (delete_task [] 1).msg = (delete_task [exTask 1 "low"] 1).msg ∧
    (delete_task [exTask 1 "low"] 1).tasks = [] := by decide

/-- C4 (amended): `delete_task` removes exactly the tasks with the given id,
leaves the collection unchanged when no task has that id (a no-op, not an
error), and saves unconditionally; but it does not report whether a task was
found and removed: the message is always "Task deleted.". -/
theorem delete_task_spec (ts : List Task) (task_id : Int) :
    (delete_task ts task_id).tasks = ts.filter (fun t => t.id != task_id) ∧
    (delete_task ts task_id).saved = true ∧
    (delete_task ts task_id).msg = "Task deleted." ∧
    (∀ t ∈ (delete_task ts task_id).tasks, t.id ≠ task_id) ∧
    (∀ t ∈ ts, t.id ≠ task_id → t ∈ (delete_task ts task_id).tasks) ∧
    ((∀ t ∈ ts, t.id ≠ task_id) → (delete_task ts task_id).tasks = ts) := by
  refine ⟨rfl, rfl, rfl, ?_, ?_, ?_⟩
  · intro t ht
    have h := List.mem_filter.mp ht
    simpa using h.2
  · intro t ht h
    exact List.mem_filter.mpr ⟨ht, by simpa using h⟩
  · intro h
    apply List.filter_eq_self.mpr
    intro a ha
    simpa using h a ha

theorem delete_task_spec_witness :
    (delete_task [exTask 1 "low"] 2).tasks = [exTask 1 "low"] :=
  (delete_task_spec [exTask 1 "low"] 2).2.2.2.2.2 (by decide)

/-- C5 is false as stated: the priority invariant is not enforced on load —
`Task.from_dict` accepts any priority text (lines 38-40 pass it through
unchecked), so a backing-file record with priority "urgent" loads into a
stored task violating the invariant. -/
theorem priority_invariant_counterexample :
    load_tasks "2024-01-01 00:00:00" [urgentDict] = [urgentTask] ∧
    urgentTask.priority = "urgent" ∧
    ¬ ValidPriority urgentTask := by decide

/-- C5 (amended): every task created by `add_task` has a valid priority (low,
medium or high), and `update_task`, `toggle_complete`, `delete_task` and
`sort_tasks` preserve validity of all stored priorities; but `load_tasks`
performs no check — it yields only valid priorities exactly when every file
record's priority is itself valid, so the invariant can be broken by the
backing file. -/
theorem priority_invariant_spec :
    (∀ now ts ti de pr tg dd, (∀ t ∈ ts, ValidPriority t) →
      ∀ t ∈ (add_task now ts ti de pr tg dd).tasks, ValidPriority t) ∧
    (∀ ts i ti de pr tg dd, (∀ t ∈ ts, ValidPriority t) →
      ∀ t ∈ (update_task ts i ti de pr tg dd).tasks, ValidPriority t) ∧
    (∀ ts i, (∀ t ∈ ts, ValidPriority t) →
      ∀ t ∈ (toggle_complete ts i).tasks, ValidPriority t) ∧
    (∀ ts i, (∀ t ∈ ts, ValidPriority t) →
      ∀ t ∈ (delete_task ts i).tasks, ValidPriority t) ∧
    (∀ ts choice r, (∀ t ∈ ts, ValidPriority t) →
      sort_tasks ts choice = Except.ok r → ∀ t ∈ r.tasks, ValidPriority t) ∧
    (∀ now ds, (∀ d ∈ ds, d.priority = "low" ∨ d.priority = "medium" ∨ d.priority = "high") →
      ∀ t ∈ load_tasks now ds, ValidPriority t) := by
  refine ⟨?_, ?_, ?_, ?_, ?_, ?_⟩
  · intro now ts ti de pr tg dd hv t ht
    simp only [add_task] at ht
    rcases List.mem_append.mp ht with h | h
    · exact hv t h
    · rw [List.mem_singleton] at h
      subst h
      exact validStr_ite (pyLower pr) "medium" (Or.inr (Or.inl rfl))
  · intro ts i ti de pr tg dd hv t ht
    cases hft : find_task ts i with
    | none =>
      simp only [update_task, hft] at ht
      exact hv t ht
    | some t0 =>
      simp only [update_task, hft] at ht
      rcases mem_set_first ht with h | ⟨t1, ht1, h⟩
      · exact hv t h
      · subst h
        exact update_fields_valid t1 ti de pr tg dd (hv t1 ht1)
  · intro ts i hv t ht
    cases hft : find_task ts i with
    | none =>
      simp only [toggle_complete, hft] at ht
      exact hv t ht
    | some t0 =>
      simp only [toggle_complete, hft] at ht
      rcases mem_set_first ht with h | ⟨t1, ht1, h⟩
      · exact hv t h
      · subst h
        exact hv t1 ht1
  · intro ts i hv t ht
    simp only [delete_task] at ht
    exact hv t (List.mem_filter.mp ht).1
  · intro ts choice r hv hok t ht
    unfold sort_tasks at hok
    split_ifs at hok
    all_goals
      injection hok with h
    all_goals
      subst h
    all_goals first
      | exact hv t ((List.perm_insertionSort priority_le ts).subset ht)
      | exact hv t ((List.perm_insertionSort title_le ts).subset ht)
      | exact hv t ((List.perm_insertionSort created_le ts).subset ht)
      | exact hv t ht
  · intro now ds hv t ht
    rcases List.mem_map.mp ht with ⟨d, hd, h⟩
    subst h
    exact hv d hd

theorem priority_invariant_spec_witness :
    ∀ t ∈ (update_task [exTask 1 "low"] 1 "" "" "urgent" "" "").tasks, ValidPriority t :=
  priority_invariant_spec.2.1 [exTask 1 "low"] 1 "" "" "urgent" "" "" (by decide)

/-- C6 is false as stated: the supplied value "HIGH" is not one of
{low, medium, high}, yet update does not ignore it — line 119 lowercases the
input before the membership test, so the priority is replaced by "high". -/
theorem update_priority_counterexample :
    ("HIGH" ∉ (["low", "medium", "high"] : List String)) ∧
    (update_task [exTask 1 "low"] 1 "" "" "HIGH" "" "").tasks
      = [{ exTask 1 "low" with priority := "high" }] ∧
    ({ exTask 1 "low" with priority := "high" } : Task).priority
      ≠ (exTask 1 "low").priority := by decide

/-- C6 (amended): `update_task` lowercases the supplied priority and
replaces the task's priority exactly when the lowercased value is one of
{low, medium, high} (the replacement being that lowercased value); any other
input — e.g. "urgent" — is silently ignored, the existing priority staying
unchanged rather than being coerced to "medium" as in add. -/
theorem update_priority_spec (ts : List Task) (task_id : Int) (t : Task)
    (hf : find_task ts task_id = some t) (ti de pr tg dd : String) :
    (∃ t', find_task (update_task ts task_id ti de pr tg dd).tasks task_id = some t' ∧
      t'.priority = (if pyLower pr ∈ (["low", "medium", "high"] : List String)
        then pyLower pr else t.priority)) ∧
    update_task [exTask 1 "medium"] 1 "" "" "urgent" "" ""
      = { tasks := [exTask 1 "medium"], saved := true, msg := "Task updated." } := by
  constructor
  · refine ⟨update_fields t ti de pr tg dd, ?_, rfl⟩
    simp only [update_task, hf]
    rw [find_task_set_first ts task_id (fun x => update_fields x ti de pr tg dd) (fun x => rfl),
      hf]
    rfl
  · decide

theorem update_priority_spec_witness :
    ∃ t', find_task (update_task [exTask 1 "low"] 1 "" "" "urgent" "" "").tasks 1 = some t' ∧
      t'.priority = (if pyLower "urgent" ∈ (["low", "medium", "high"] : List String)
        then pyLower "urgent" else (exTask 1 "low").priority) :=
  (update_priority_spec [exTask 1 "low"] 1 (exTask 1 "low") (by decide) "" "" "urgent" "" "").1

/-- C7: on update, a tags input that is non-blank after stripping replaces
the tags wholesale with the comma-split, trimmed — but not lowercased —
tokens, independently of the old tags (no merge); on add the tags input is
lowercased, split, trimmed and empty entries are dropped; the concrete input
"Home, WORK" exhibits the add/update asymmetry. -/
theorem update_tags_spec (ts : List Task) (task_id : Int) (t : Task)
    (hf : find_task ts task_id = some t) (ti de pr tg dd : String)
    (htg : pyStrip tg ≠ "") :
    (∃ t', find_task (update_task ts task_id ti de pr tg dd).tasks task_id = some t' ∧
      t'.tags = (pySplitComma tg).map pyStrip) ∧
    (∀ now ts' ti' de' pr' tg' dd', ∃ nt : Task,
      (add_task now ts' ti' de' pr' tg' dd').tasks = ts' ++ [nt] ∧
      nt.tags = ((pySplitComma (pyLower tg')).filter (fun s => pyStrip s != "")).map pyStrip) ∧
    (update_task [exTask 1 "low"] 1 "" "" "" "Home, WORK" "").tasks
      = [{ exTask 1 "low" with tags := ["Home", "WORK"] }] ∧
    (add_task "2024-01-01 00:00:00" [] "a" "" "" "Home, WORK" "").tasks.map Task.tags
      = [["home", "work"]] := by
  refine ⟨?_, ?_, by decide, by decide⟩
  · refine ⟨update_fields t ti de pr tg dd, ?_, ?_⟩
    · simp only [update_task, hf]
      rw [find_task_set_first ts task_id (fun x => update_fields x ti de pr tg dd) (fun x => rfl),
        hf]
      rfl
    · show (if pyStrip tg ≠ "" then (pySplitComma tg).map pyStrip else t.tags) = _
      rw [if_pos htg]
  · intro now ts' ti' de' pr' tg' dd'
    refine ⟨_, rfl, ?_⟩
    exact task_init_some_tags _ _ _ _ _ _ _ _ _

theorem update_tags_spec_witness :
    ∃ t', find_task (update_task [exTask 1 "low"] 1 "" "" "" "A, B" "").tasks 1 = some t' ∧
      t'.tags = (pySplitComma "A, B").map pyStrip :=
  (update_tags_spec [exTask 1 "low"] 1 (exTask 1 "low") (by decide) "" "" "" "A, B" ""
    (by decide)).1

/-- C8: when every stored priority is valid, sort mode 1 succeeds, saves,
and returns a permutation of the collection sorted ascending by the fixed
order low < medium < high (`priority_le` compares positions in
["low", "medium", "high"], not alphabetically) and stable: for every
priority string the subsequence of tasks carrying it is unchanged; on the
concrete priorities [high, low, medium] the result is [low, medium, high]
(alphabetical order would instead leave [high, low, medium]). -/
theorem sort_by_priority_spec :
    (∀ ts : List Task, (∀ t ∈ ts, ValidPriority t) →
      ∃ ts', sort_tasks ts "1"
          = Except.ok { tasks := ts', saved := true, msg := "Tasks sorted." } ∧
        ts'.Perm ts ∧
        List.Sorted priority_le ts' ∧
        ∀ p : String, ts'.filter (fun t => t.priority == p)
          = ts.filter (fun t => t.priority == p)) ∧
    sort_tasks [exTask 1 "high", exTask 2 "low", exTask 3 "medium"] "1"
      = Except.ok
          { tasks := [exTask 2 "low", exTask 3 "medium", exTask 1 "high"]
            saved := true
            msg := "Tasks sorted." } := by
  refine ⟨?_, by rfl⟩
  intro ts hv
  have hall : (ts.all fun t => (priority_index t.priority).isSome) = true := by
    rw [List.all_eq_true]
    intro t ht
    rcases hv t ht with h | h | h <;> simp [priority_index, h]
  refine ⟨List.insertionSort priority_le ts, ?_,
    List.perm_insertionSort priority_le ts, List.sorted_insertionSort priority_le ts, ?_⟩
  · simp [sort_tasks, hall]
  · intro p
    rw [filter_priority_eq_filter_key _
        (fun t ht => hv t ((List.perm_insertionSort priority_le ts).subset ht)) p,
      filter_priority_eq_filter_key ts hv p, filter_key_insertionSort]

theorem sort_by_priority_spec_witness :
    ∃ ts', sort_tasks [exTask 1 "high", exTask 2 "low"] "1"
        = Except.ok { tasks := ts', saved := true, msg := "Tasks sorted." } ∧
      ts'.Perm [exTask 1 "high", exTask 2 "low"] ∧
      List.Sorted priority_le ts' ∧
      ∀ p : String, ts'.filter (fun t => t.priority == p)
        = [exTask 1 "high", exTask 2 "low"].filter (fun t => t.priority == p) :=
  sort_by_priority_spec.1 [exTask 1 "high", exTask 2 "low"] (by decide)

/-- C9: search returns exactly the tasks whose title or description contains
the keyword case-insensitively (both sides lowercased before the substring
test), as a sublist of the collection — so in current collection order; the
empty keyword matches every task, and a keyword contained in no title or
description yields the empty list. -/
theorem search_tasks_spec :
    (∀ ts : List Task, search_tasks ts "" = ts) ∧
    (∀ ts kw, (search_tasks ts kw).Sublist ts) ∧
    (∀ ts kw (t : Task), t ∈ search_tasks ts kw ↔
      t ∈ ts ∧ (pyIn (pyLower kw) (pyLower t.title) = true ∨
                pyIn (pyLower kw) (pyLower t.description) = true)) ∧
    (∀ ts kw, (∀ t ∈ ts, pyIn (pyLower kw) (pyLower t.title) = false ∧
        pyIn (pyLower kw) (pyLower t.description) = false) →
      search_tasks ts kw = []) := by
  refine ⟨?_, ?_, ?_, ?_⟩
  · intro ts
    apply List.filter_eq_self.mpr
    intro t ht
    have h1 : ∀ s : String, pyIn (pyLower "") s = true := fun s => containsChars_nil s.data
    rw [Bool.or_eq_true, h1, h1]
    exact Or.inl rfl
  · intro ts kw
    exact List.filter_sublist _
  · intro ts kw t
    simp [search_tasks, List.mem_filter, Bool.or_eq_true]
  · intro ts kw h
    apply List.filter_eq_nil_iff.mpr
    intro t ht
    simp [(h t ht).1, (h t ht).2]

theorem search_tasks_spec_witness :
    search_tasks [exTask 1 "low"] "xyz" = [] :=
  search_tasks_spec.2.2.2 [exTask 1 "low"] "xyz" (by decide)

/-- C10: sort by priority is partial on reachable store states:
deserialization accepts any priority text, so loading a backing-file record
with priority "urgent" puts a task with that priority in the store, and
sort mode 1 on that store fails with a ValueError (the fixed-list index
lookup has no result) instead of returning a reordered collection. -/
theorem sort_by_priority_partial :
    Task.from_dict "2024-01-01 00:00:00" urgentDict = urgentTask ∧
    priority_index urgentTask.priority = none ∧
    sort_tasks (load_tasks "2024-01-01 00:00:00" [urgentDict]) "1"
      = Except.error "ValueError" :=
  ⟨by decide, by decide, by rfl⟩

end TodoApp
